import Mathlib

/-!
Verification of the sales-dashboard aggregation and filtering logic
(src/dashboard-demo.py) as a shallow embedding: rows are records with a
calendar date, a store identifier and a rational sales amount; the derived
calendar fields (month number, short month name, day-of-week name,
year-month label) are computed from the date exactly as the loader derives
them, and each aggregation (period filter, heatmap pivot, mean/median
stats, monthly trend, per-store composition, display table) is translated
from the corresponding lines of the script.
-/

namespace Dashboard

/-- A calendar date as loaded by `pd.to_datetime` (year, month, day). -/
structure Date where
  year : Nat
  month : Nat
  day : Nat
deriving DecidableEq, Repr

/-- Numeric key realising the chronological order on dates
(months and days are below 100, so this is the lexicographic order). -/
def Date.key (d : Date) : Nat := (d.year * 100 + d.month) * 100 + d.day

instance : LE Date := ⟨fun a b => a.key ≤ b.key⟩

instance : LT Date := ⟨fun a b => a.key < b.key⟩

instance (a b : Date) : Decidable (a ≤ b) := inferInstanceAs (Decidable (a.key ≤ b.key))

instance (a b : Date) : Decidable (a < b) := inferInstanceAs (Decidable (a.key < b.key))

/-- Well-formedness of a loaded date: pandas timestamps always carry a
month in 1..12 and a day in 1..31, and their year fits in four digits. -/
def ValidDate (d : Date) : Prop :=
  1 ≤ d.month ∧ d.month ≤ 12 ∧ 1 ≤ d.day ∧ d.day ≤ 31 ∧ 1 ≤ d.year ∧ d.year ≤ 9999

instance (d : Date) : Decidable (ValidDate d) :=
  inferInstanceAs (Decidable (_ ∧ _ ∧ _ ∧ _ ∧ _ ∧ _))

/-- One row of the Sales sheet after loading: `date`, `store`, `sales`
(sales as an exact rational, standing for the numeric column). -/
structure Row where
  date : Date
  store : String
  sales : ℚ
deriving DecidableEq

/-! ### Calendar fields derived at load time (load_data_from_gsheets)

The loader adds `month_num = dt.month`, `month_name = strftime('%b')`,
`day_of_week = dt.day_name()` and `month_year = to_period('M').astype(str)`,
all functions of the date column; we compute them from the date. -/

/-- The decimal digit character of `n mod 10` (codepoint 48 + digit). -/
def mdc (n : Nat) : Char := Char.ofNat (48 + n % 10)

/-- Four-digit zero-padded decimal representation, as a character list. -/
def pad4Chars (n : Nat) : List Char := [mdc (n / 1000), mdc (n / 100), mdc (n / 10), mdc n]

/-- Two-digit zero-padded decimal representation, as a character list. -/
def pad2Chars (n : Nat) : List Char := [mdc (n / 10), mdc n]

/-- month_num column: the calendar month of the date. -/
def month_num (r : Row) : Nat := r.date.month

/-- Short month name, as strftime with the %b format produces it. -/
def monthAbbr (m : Nat) : String :=
  ["Jan", "Feb", "Mar", "Apr", "May", "Jun",
   "Jul", "Aug", "Sep", "Oct", "Nov", "Dec"].getD (m - 1) "Jan"

/-- month_name column of a row. -/
def month_name (r : Row) : String := monthAbbr r.date.month

/-- Day-of-week index by the Zeller congruence (0 = Saturday). -/
def dayIdx (d : Date) : Nat :=
  let m := if d.month < 3 then d.month + 12 else d.month
  let y := if d.month < 3 then d.year - 1 else d.year
  (d.day + (13 * (m + 1)) / 5 + y % 100 + (y % 100) / 4 + (y / 100) / 4 + 5 * (y / 100)) % 7

/-- English day name of a date, as dt.day_name() produces it. -/
def dayNameOf (d : Date) : String :=
  ["Saturday", "Sunday", "Monday", "Tuesday",
   "Wednesday", "Thursday", "Friday"].getD (dayIdx d) "Saturday"

/-- day_of_week column of a row. -/
def day_of_week (r : Row) : String := dayNameOf r.date

/-- The year-month label of a date in the YYYY-MM shape that
to_period('M').astype(str) yields. -/
def monthYearOf (d : Date) : String := String.mk (pad4Chars d.year ++ '-' :: pad2Chars d.month)

/-- month_year column of a row. -/
def month_year (r : Row) : String := monthYearOf r.date

/-- The date rendered with the %d/%m/%Y format (data-explorer display). -/
def dateDisplay (d : Date) : String :=
  String.mk (pad2Chars d.day ++ '/' :: (pad2Chars d.month ++ '/' :: pad4Chars d.year))

/-! ### Aggregation helpers -/

/-- Sum of the sales column of a list of rows. -/
def sumSales (rows : List Row) : ℚ := (rows.map Row.sales).sum

/-- Mean of the sales column (pandas mean of a nonempty group). -/
def meanSales (rows : List Row) : ℚ := sumSales rows / rows.length

/-- Median of the sales column: middle of the sorted values for odd
length, average of the two middle values for even length (pandas
default linear interpolation on a nonempty group). -/
def medianSales (rows : List Row) : ℚ :=
  let s := List.insertionSort (· ≤ ·) (rows.map Row.sales)
  if s.length % 2 = 1 then s.getD (s.length / 2) 0
  else (s.getD (s.length / 2 - 1) 0 + s.getD (s.length / 2) 0) / 2

/-- Strict lexicographic order on strings by character code, the order
Python uses on str values. -/
def strLt (a b : String) : Prop := List.Lex (· < ·) a.data b.data

instance : DecidableRel strLt := fun a b =>
  inferInstanceAs (Decidable (List.Lex _ _ _))

/-- The reflexive closure of strLt. -/
def strLe (a b : String) : Prop := ¬strLt b a

instance : DecidableRel strLe := fun a b =>
  inferInstanceAs (Decidable (¬_))

/-- The distinct values of a key column in ascending order: pandas
groupby and pivot_table sort the group keys. -/
def sortedKeys (l : List String) : List String := List.insertionSort strLe l.dedup

/-! ### Filter layer (df_period_1 / df_period_2, lines 172-201)

The script first keeps the rows whose date is between the two bounds
(inclusive on both ends) and then keeps the rows whose store is in the
multiselect value. -/

/-- Date-range filter: `df[df['date'].between(start, end)]`. -/
def filterPeriod (df : List Row) (s e : Date) : List Row :=
  df.filter fun r => decide (s ≤ r.date) && decide (r.date ≤ e)

/-- Store filter: `df[df['store'].isin(selected_stores)]`. -/
def filterStores (df : List Row) (stores : List String) : List Row :=
  df.filter fun r => decide (r.store ∈ stores)

/-- The main-period subset: date-range filter then store filter. -/
def df_period_1 (df : List Row) (s1 e1 : Date) (stores : List String) : List Row :=
  filterStores (filterPeriod df s1 e1) stores

/-- The comparison subset: empty when compare mode is off, otherwise the
same two filters over the comparison range (filtering an empty frame by
stores leaves it empty, so the emptiness guard of line 200 is absorbed). -/
def df_period_2 (df : List Row) (compareMode : Bool) (s2 e2 : Date)
    (stores : List String) : List Row :=
  if compareMode then filterStores (filterPeriod df s2 e2) stores else []

/-! ### KPI delta (lines 221-222) -/

/-- Value of a percentage delta: a finite rational or positive infinity. -/
inductive DeltaVal where
  | fin (q : ℚ)
  | inf
deriving DecidableEq, Repr

/-- sales_var: `((v1 - v2) / v2) * 100 if v2 > 0 else float('inf')`. -/
def sales_var (v1 v2 : ℚ) : DeltaVal :=
  if 0 < v2 then DeltaVal.fin ((v1 - v2) / v2 * 100) else DeltaVal.inf

/-! ### Heatmap builder (create_heatmap, lines 85-105)

pivot_table(values='sales', index='store', columns='day_of_week',
aggfunc='mean').reindex(columns=ordered_days): the row index is the
sorted distinct stores; after the reindex the columns are exactly the
seven day names Monday..Sunday in that order, a cell being NaN when the
(store, day) pair has no row. -/

/-- The fixed column order of the heatmap. -/
def ordered_days : List String :=
  ["Monday", "Tuesday", "Wednesday", "Thursday", "Friday", "Saturday", "Sunday"]

/-- One pivot cell: mean of the sales of the (store, day) group, or
none when the group is empty (NaN cell). -/
def heatmapCell (rows : List Row) (s dy : String) : Option ℚ :=
  let g := rows.filter fun r => r.store == s && day_of_week r == dy
  if g.isEmpty then none else some (meanSales g)

/-- The reindexed pivot: one line per store (sorted), one cell per
ordered day. -/
def heatmapData (rows : List Row) : List (String × List (Option ℚ)) :=
  (sortedKeys (rows.map Row.store)).map fun s => (s, ordered_days.map (heatmapCell rows s))

/-- create_heatmap: returns no chart on an empty input, otherwise the
pivoted matrix that px.imshow renders. -/
def create_heatmap (rows : List Row) : Option (List (String × List (Option ℚ))) :=
  if rows.isEmpty then none else some (heatmapData rows)

/-! ### Mean/median bar chart (create_stats_barchart, lines 107-137)

The builder keeps the rows with `sales > 0` and aggregates mean and
median per store; the melt step only reshapes the same three columns
for plotting, so the (store, mean, median) triples are the content. -/

/-- The aggregated (store, mean, median) table over operating days. -/
def stats_of (rows : List Row) : List (String × ℚ × ℚ) :=
  let op := rows.filter fun r => decide ((0 : ℚ) < r.sales)
  (sortedKeys (op.map Row.store)).map fun s =>
    let g := op.filter fun r => r.store == s
    (s, meanSales g, medianSales g)

/-- create_stats_barchart: returns no chart on an empty input, otherwise
the aggregated stats table. -/
def create_stats_barchart (rows : List Row) : Option (List (String × ℚ × ℚ)) :=
  if rows.isEmpty then none else some (stats_of rows)

/-- Spec-side rendering of the typical-performance aggregator, following
the claim wording: first remove every row whose sales value is 0, then
aggregate mean and median per store. -/
def statsSpec (rows : List Row) : List (String × ℚ × ℚ) :=
  let op := rows.filter fun r => decide (r.sales ≠ 0)
  (sortedKeys (op.map Row.store)).map fun s =>
    let g := op.filter fun r => r.store == s
    (s, meanSales g, medianSales g)

/-! ### Monthly trend (lines 268-289) -/

/-- One point of the compare-mode monthly series. -/
structure MonthlyEntry where
  mnum : Nat
  mname : String
  sales : ℚ
  period : String
deriving DecidableEq, Repr

/-- Order on (month number, month name) keys, as groupby sorts them. -/
def monthKeyLe (a b : Nat × String) : Prop :=
  a.1 < b.1 ∨ (a.1 = b.1 ∧ a.2 ≤ b.2)

instance : DecidableRel monthKeyLe := fun a b =>
  inferInstanceAs (Decidable (_ ∨ _))

/-- The distinct (month_num, month_name) keys of a subset in groupby
order. -/
def monthKeys (rows : List Row) : List (Nat × String) :=
  List.insertionSort monthKeyLe (rows.map fun r => (month_num r, month_name r)).dedup

/-- groupby(['month_num', 'month_name'])['sales'].sum() with a constant
Period label column appended. -/
def groupMonthly (rows : List Row) (p : String) : List MonthlyEntry :=
  (monthKeys rows).map fun k =>
    ⟨k.1, k.2, sumSales (rows.filter fun r => month_num r == k.1 && month_name r == k.2), p⟩

/-- Month-number order on series points (`sort_values('month_num')`). -/
def entryLe (a b : MonthlyEntry) : Prop := a.mnum ≤ b.mnum

instance : DecidableRel entryLe := fun a b =>
  inferInstanceAs (Decidable (_ ≤ _))

/-- Compare-mode plot_df: the two labelled monthly series concatenated
and sorted by month number. -/
def monthlyCompare (rows1 rows2 : List Row) : List MonthlyEntry :=
  List.insertionSort entryLe (groupMonthly rows1 "Main" ++ groupMonthly rows2 "Comparison")

/-- Single-period plot_df: groupby('month_year')['sales'].sum(), keys in
the sorted order groupby yields. -/
def monthlySingle (rows : List Row) : List (String × ℚ) :=
  (sortedKeys (rows.map month_year)).map fun k =>
    (k, sumSales (rows.filter fun r => month_year r == k))

/-- The monthly-trend branch of the summary tab: the compare-mode series
when compare mode is on and the comparison subset is non-empty, the
single-period series otherwise. -/
def monthlyTrend (compareMode : Bool) (rows1 rows2 : List Row) :
    List MonthlyEntry ⊕ List (String × ℚ) :=
  if compareMode && !rows2.isEmpty then Sum.inl (monthlyCompare rows1 rows2)
  else Sum.inr (monthlySingle rows1)

/-! ### Composition donut (line 296) -/

/-- store_sales: groupby('store')['sales'].sum(). -/
def store_sales (rows : List Row) : List (String × ℚ) :=
  (sortedKeys (rows.map Row.store)).map fun s =>
    (s, sumSales (rows.filter fun r => r.store == s))

/-- The data of the composition donut: line 296 computes it from
df_period_1 alone, whatever the compare-mode state and the comparison
range are. -/
def compositionData (df : List Row) (compareMode : Bool) (s1 e1 s2 e2 : Date)
    (stores : List String) : List (String × ℚ) :=
  store_sales (df_period_1 df s1 e1 stores)

/-! ### Data explorer (lines 342-349)

The script copies the columns date, store, sales, day_of_week, rewrites
the sales column to a currency string and the date column to its
%d/%m/%Y string, and then sorts by the date column descending — at that
point the column holds the formatted strings, so the sort compares
strings. The currency formatting of the sales cell is presentation only
and is kept as the rational value here; the date formatting matters for
the sort and is modelled exactly. -/

/-- One displayed line of the data explorer. -/
structure DisplayRow where
  date : String
  store : String
  sales : ℚ
  day_of_week : String
deriving DecidableEq, Repr

/-- The displayed line of a data row. -/
def displayRow (r : Row) : DisplayRow :=
  ⟨dateDisplay r.date, r.store, r.sales, day_of_week r⟩

/-- Descending order on the formatted date column
(`sort_values(by="date", ascending=False)` after the strftime). -/
def displayGe (a b : DisplayRow) : Prop := strLe b.date a.date

instance : DecidableRel displayGe := fun a b =>
  inferInstanceAs (Decidable (strLe _ _))

/-- df_display sorted as st.dataframe receives it. -/
def df_display (rows : List Row) : List DisplayRow :=
  List.insertionSort displayGe (rows.map displayRow)

/-! ### Helper lemmas -/

theorem strLt_iff (a b : String) : strLt a b ↔ a < b := by
  rw [String.lt_iff_toList_lt]
  exact Iff.rfl

theorem strLe_iff (a b : String) : strLe a b ↔ a ≤ b := by
  unfold strLe
  rw [strLt_iff]
  exact not_lt

instance : IsTotal String strLe :=
  ⟨fun a b => by rw [strLe_iff, strLe_iff]; exact le_total a b⟩

instance : IsTrans String strLe :=
  ⟨fun a b c h1 h2 => (strLe_iff a c).mpr
    (le_trans ((strLe_iff a b).mp h1) ((strLe_iff b c).mp h2))⟩

instance : IsAntisymm String strLe :=
  ⟨fun a b h1 h2 => le_antisymm ((strLe_iff a b).mp h1) ((strLe_iff b a).mp h2)⟩

theorem insertionSort_le_congr {α : Type} [LinearOrder α] {l1 l2 : List α}
    (h : l1.Perm l2) :
    List.insertionSort (· ≤ ·) l1 = List.insertionSort (· ≤ ·) l2 :=
  List.eq_of_perm_of_sorted
    ((List.perm_insertionSort _ _).trans (h.trans (List.perm_insertionSort _ _).symm))
    (List.sorted_insertionSort _ _) (List.sorted_insertionSort _ _)

theorem insertionSort_strLe_congr {l1 l2 : List String} (h : l1.Perm l2) :
    List.insertionSort strLe l1 = List.insertionSort strLe l2 :=
  List.eq_of_perm_of_sorted
    ((List.perm_insertionSort _ _).trans (h.trans (List.perm_insertionSort _ _).symm))
    (List.sorted_insertionSort _ _) (List.sorted_insertionSort _ _)

theorem sortedKeys_nodup (l : List String) : (sortedKeys l).Nodup :=
  (List.perm_insertionSort _ _).nodup_iff.mpr (List.nodup_dedup l)

theorem mem_sortedKeys {l : List String} {a : String} : a ∈ sortedKeys l ↔ a ∈ l :=
  (List.perm_insertionSort _ _).mem_iff.trans List.mem_dedup

theorem sortedKeys_sorted (l : List String) : List.Sorted strLe (sortedKeys l) :=
  List.sorted_insertionSort _ _

theorem sortedKeys_congr {l1 l2 : List String} (h : l1.Perm l2) :
    sortedKeys l1 = sortedKeys l2 :=
  insertionSort_strLe_congr h.dedup

theorem sumSales_congr {r1 r2 : List Row} (h : r1.Perm r2) : sumSales r1 = sumSales r2 :=
  (h.map Row.sales).sum_eq

theorem meanSales_congr {r1 r2 : List Row} (h : r1.Perm r2) : meanSales r1 = meanSales r2 := by
  unfold meanSales
  rw [sumSales_congr h, h.length_eq]

theorem medianSales_congr {r1 r2 : List Row} (h : r1.Perm r2) :
    medianSales r1 = medianSales r2 := by
  unfold medianSales
  rw [insertionSort_le_congr (h.map Row.sales)]

theorem sumSales_filter_add (p : Row → Bool) (rows : List Row) :
    sumSales (rows.filter p) + sumSales (rows.filter fun r => !p r) = sumSales rows := by
  induction rows with
  | nil => simp [sumSales]
  | cons a l ih =>
    by_cases h : p a <;>
      simp only [List.filter_cons, h, Bool.not_true, Bool.not_false, if_pos, if_neg,
        Bool.false_eq_true, not_false_eq_true, ite_true, ite_false, sumSales,
        List.map_cons, List.sum_cons] at ih ⊢ <;>
      linarith

theorem sum_groups (f : Row → String) (keys : List String) (rows : List Row)
    (hnd : keys.Nodup) (hall : ∀ r ∈ rows, f r ∈ keys) :
    (keys.map fun s => sumSales (rows.filter fun r => f r == s)).sum = sumSales rows := by
  induction keys generalizing rows with
  | nil =>
    have hrows : rows = [] := by
      cases rows with
      | nil => rfl
      | cons r l => exact absurd (hall r (by simp)) (by simp)
    subst hrows
    simp [sumSales]
  | cons k ks ih =>
    have hk : k ∉ ks := (List.nodup_cons.mp hnd).1
    have hnd' : ks.Nodup := (List.nodup_cons.mp hnd).2
    have hall' : ∀ r ∈ rows.filter fun r => !(f r == k), f r ∈ ks := by
      intro r hr
      rw [List.mem_filter] at hr
      have hmem := hall r hr.1
      have hne : f r ≠ k := by simpa using hr.2
      simpa [hne] using hmem
    have hfilters : ∀ s ∈ ks,
        (rows.filter fun r => !(f r == k)).filter (fun r => f r == s)
          = rows.filter fun r => f r == s := by
      intro s hs
      have hsk : s ≠ k := fun he => hk (he ▸ hs)
      rw [List.filter_filter]
      apply List.filter_congr
      intro r _
      by_cases hrs : f r = s
      · simp [hrs, hsk]
      · simp [hrs]
    rw [List.map_cons, List.sum_cons]
    have hmap : (ks.map fun s => sumSales (rows.filter fun r => f r == s))
        = ks.map fun s =>
            sumSales ((rows.filter fun r => !(f r == k)).filter fun r => f r == s) := by
      apply List.map_congr_left
      intro s hs
      rw [hfilters s hs]
    rw [hmap, ih _ hnd' hall']
    exact sumSales_filter_add (fun r => f r == k) rows

theorem lex_cons_iff (a b : Char) (l1 l2 : List Char) :
    List.Lex (· < ·) (a :: l1) (b :: l2) ↔ a < b ∨ (a = b ∧ List.Lex (· < ·) l1 l2) := by
  constructor
  · intro h
    cases h with
    | cons h => exact Or.inr ⟨rfl, h⟩
    | rel h => exact Or.inl h
  · rintro (h | ⟨rfl, h⟩)
    · exact List.Lex.rel h
    · exact List.Lex.cons h

theorem lex_nil_iff : List.Lex (· < ·) ([] : List Char) [] ↔ False :=
  iff_false_intro (List.Lex.not_nil_right _ _)

theorem hyphen_lt : (('-' : Char) < '-') ↔ False := by decide

theorem digit_char_lt (x y : Nat) (hx : x ≤ 9) (hy : y ≤ 9) :
    (Char.ofNat (48 + x) < Char.ofNat (48 + y)) ↔ x < y := by
  interval_cases x <;> interval_cases y <;> decide

theorem digit_char_eq (x y : Nat) (hx : x ≤ 9) (hy : y ≤ 9) :
    (Char.ofNat (48 + x) = Char.ofNat (48 + y)) ↔ x = y := by
  interval_cases x <;> interval_cases y <;> decide

theorem mdc_lt_iff (a b : Nat) : (mdc a < mdc b) ↔ a % 10 < b % 10 := by
  simpa [mdc] using digit_char_lt (a % 10) (b % 10) (Nat.le_of_lt_succ (a.mod_lt (by omega)))
    (Nat.le_of_lt_succ (b.mod_lt (by omega)))

theorem mdc_eq_iff (a b : Nat) : (mdc a = mdc b) ↔ a % 10 = b % 10 := by
  simpa [mdc] using digit_char_eq (a % 10) (b % 10) (Nat.le_of_lt_succ (a.mod_lt (by omega)))
    (Nat.le_of_lt_succ (b.mod_lt (by omega)))

theorem string_mk_lt_iff (l1 l2 : List Char) :
    String.mk l1 < String.mk l2 ↔ List.Lex (· < ·) l1 l2 :=
  String.lt_iff_toList_lt

/-- Lexicographic order on the YYYY-MM labels coincides with the
chronological order on (year, month) for well-formed dates. -/
theorem monthYear_lt_iff (d1 d2 : Date) (h1 : ValidDate d1) (h2 : ValidDate d2) :
    monthYearOf d1 < monthYearOf d2 ↔
      d1.year < d2.year ∨ (d1.year = d2.year ∧ d1.month < d2.month) := by
  obtain ⟨hm1, hm1b, -, -, -, hy1⟩ := h1
  obtain ⟨hm2, hm2b, -, -, -, hy2⟩ := h2
  rw [monthYearOf, monthYearOf, string_mk_lt_iff]
  simp only [pad4Chars, pad2Chars, List.cons_append, List.nil_append]
  simp only [lex_cons_iff, lex_nil_iff, hyphen_lt, mdc_lt_iff, mdc_eq_iff]
  simp only [eq_self_iff_true, true_and, false_or, or_false, and_false, false_and]
  have e1 : d1.year = 1000 * (d1.year / 1000 % 10) + 100 * (d1.year / 100 % 10)
      + 10 * (d1.year / 10 % 10) + d1.year % 10 := by omega
  have e2 : d2.year = 1000 * (d2.year / 1000 % 10) + 100 * (d2.year / 100 % 10)
      + 10 * (d2.year / 10 % 10) + d2.year % 10 := by omega
  have e3 : d1.month = 10 * (d1.month / 10 % 10) + d1.month % 10 := by omega
  have e4 : d2.month = 10 * (d2.month / 10 % 10) + d2.month % 10 := by omega
  omega

/-! ### Claims -/

/-- C1: every row of the filter-layer output satisfies
start ≤ date ≤ end and store membership in the selected set, and the
output is empty exactly when no row of the dataset satisfies both
conditions. -/
theorem C1_filter_layer (df : List Row) (s1 e1 : Date) (stores : List String) :
    (∀ r ∈ df_period_1 df s1 e1 stores, s1 ≤ r.date ∧ r.date ≤ e1 ∧ r.store ∈ stores) ∧
    (df_period_1 df s1 e1 stores = [] ↔
      ∀ r ∈ df, ¬(s1 ≤ r.date ∧ r.date ≤ e1 ∧ r.store ∈ stores)) := by
  constructor
  · intro r hr
    simp only [df_period_1, filterStores, filterPeriod, List.mem_filter, Bool.and_eq_true,
      decide_eq_true_eq] at hr
    exact ⟨hr.1.2.1, hr.1.2.2, hr.2⟩
  · simp only [df_period_1, filterStores, filterPeriod, List.filter_filter,
      List.filter_eq_nil_iff, Bool.and_eq_true, decide_eq_true_eq]
    constructor
    · intro h r hr hc
      exact absurd ⟨hc.2.2, hc.1, hc.2.1⟩ (h r hr)
    · intro h r hr hc
      exact (h r hr) ⟨hc.2.1, hc.2.2, hc.1⟩

/-- C1 witness: a concrete dataset, range and store set, with the
filtered output evaluated. -/
theorem C1_filter_layer_witness :
    df_period_1 [⟨⟨2024, 1, 5⟩, "A", 10⟩, ⟨⟨2024, 3, 5⟩, "A", 20⟩, ⟨⟨2024, 1, 6⟩, "B", 5⟩]
        ⟨2024, 1, 1⟩ ⟨2024, 2, 1⟩ ["A"] = [⟨⟨2024, 1, 5⟩, "A", 10⟩] ∧
    ((∀ r ∈ df_period_1 [⟨⟨2024, 1, 5⟩, "A", 10⟩, ⟨⟨2024, 3, 5⟩, "A", 20⟩,
          ⟨⟨2024, 1, 6⟩, "B", 5⟩] ⟨2024, 1, 1⟩ ⟨2024, 2, 1⟩ ["A"],
        (⟨2024, 1, 1⟩ : Date) ≤ r.date ∧ r.date ≤ ⟨2024, 2, 1⟩ ∧ r.store ∈ ["A"]) ∧
      (df_period_1 [⟨⟨2024, 1, 5⟩, "A", 10⟩, ⟨⟨2024, 3, 5⟩, "A", 20⟩,
          ⟨⟨2024, 1, 6⟩, "B", 5⟩] ⟨2024, 1, 1⟩ ⟨2024, 2, 1⟩ ["A"] = [] ↔
        ∀ r ∈ [⟨⟨2024, 1, 5⟩, "A", 10⟩, ⟨⟨2024, 3, 5⟩, "A", 20⟩,
          (⟨⟨2024, 1, 6⟩, "B", 5⟩ : Row)],
          ¬((⟨2024, 1, 1⟩ : Date) ≤ r.date ∧ r.date ≤ ⟨2024, 2, 1⟩ ∧ r.store ∈ ["A"]))) :=
  ⟨by decide, C1_filter_layer _ _ _ _⟩

/-- C2 as stated is false: -50 is a nonzero comparison value, the formula
gives -300 there, yet the code yields positive infinity. -/
theorem C2_counterexample :
    sales_var 100 (-50) = DeltaVal.inf ∧
    ((100 : ℚ) - (-50)) / (-50) * 100 = -300 ∧
    sales_var 100 (-50) ≠ DeltaVal.fin (((100 : ℚ) - (-50)) / (-50) * 100) := by
  refine ⟨by decide, by norm_num, by decide⟩

/-- C2 amended: the percentage delta equals (v1 - v2) / v2 * 100 whenever
the comparison value is strictly positive, and is positive infinity
whenever the comparison value is ≤ 0 (in particular when it is exactly
zero); delta(150, 100) = 50, delta(100, 150) = -100/3 and
delta(100, 0) = +infinity. -/
theorem C2_delta_amended (v1 v2 : ℚ) :
    (0 < v2 → sales_var v1 v2 = DeltaVal.fin ((v1 - v2) / v2 * 100)) ∧
    (v2 ≤ 0 → sales_var v1 v2 = DeltaVal.inf) ∧
    sales_var 150 100 = DeltaVal.fin 50 ∧
    sales_var 100 150 = DeltaVal.fin (-100 / 3) ∧
    sales_var 100 0 = DeltaVal.inf := by
  refine ⟨fun h => ?_, fun h => ?_, ?_, ?_, by decide⟩
  · rw [sales_var, if_pos h]
  · rw [sales_var, if_neg (not_lt.mpr h)]
  · rw [sales_var, if_pos (by norm_num : (0 : ℚ) < 100)]
    norm_num
  · rw [sales_var, if_pos (by norm_num : (0 : ℚ) < 150)]
    norm_num

/-- C2 witness: both guard branches discharged at concrete values. -/
theorem C2_delta_amended_witness :
    sales_var 1 2 = DeltaVal.fin ((1 - 2) / 2 * 100) ∧
    sales_var 3 (-1) = DeltaVal.inf :=
  ⟨(C2_delta_amended 1 2).1 (by norm_num), (C2_delta_amended 3 (-1)).2.1 (by norm_num)⟩

/-- C3: over rows with non-negative sales (the data-model invariant), the
typical-performance aggregator equals the spec-side aggregator that first
removes every row whose sales value is 0, and a store appears in the
result exactly when it has some row with nonzero sales. -/
theorem C3_stats (rows : List Row) (h : ∀ r ∈ rows, 0 ≤ r.sales) :
    stats_of rows = statsSpec rows ∧
    (∀ s, (∃ x ∈ stats_of rows, x.1 = s) ↔ ∃ r ∈ rows, r.store = s ∧ r.sales ≠ 0) := by
  have hfe : (rows.filter fun r => decide ((0 : ℚ) < r.sales))
      = rows.filter fun r => decide (r.sales ≠ 0) := by
    apply List.filter_congr
    intro r hr
    simp only [decide_eq_decide]
    exact ⟨fun hlt => ne_of_gt hlt, fun hne => lt_of_le_of_ne (h r hr) (Ne.symm hne)⟩
  constructor
  · unfold stats_of statsSpec
    rw [hfe]
  · intro s
    simp only [stats_of, List.mem_map, mem_sortedKeys, List.mem_filter, decide_eq_true_eq]
    constructor
    · rintro ⟨x, ⟨s1, ⟨r, ⟨hr, hpos⟩, hrs⟩, rfl⟩, hx⟩
      exact ⟨r, hr, by rw [hrs, ← hx], ne_of_gt hpos⟩
    · rintro ⟨r, hr, rfl, hne⟩
      exact ⟨_, ⟨r.store, ⟨r, ⟨hr, lt_of_le_of_ne (h r hr) (Ne.symm hne)⟩, rfl⟩, rfl⟩, rfl⟩

/-- C3 witness: rows [(A,10),(A,0),(A,20)] give mean 15 and median 15. -/
theorem C3_stats_witness :
    (∀ r ∈ ([⟨⟨2024, 1, 1⟩, "A", 10⟩, ⟨⟨2024, 1, 8⟩, "A", 0⟩,
        ⟨⟨2024, 1, 15⟩, "A", 20⟩] : List Row), 0 ≤ r.sales) ∧
    stats_of [⟨⟨2024, 1, 1⟩, "A", 10⟩, ⟨⟨2024, 1, 8⟩, "A", 0⟩,
        ⟨⟨2024, 1, 15⟩, "A", 20⟩] = [("A", 15, 15)] ∧
    (stats_of [⟨⟨2024, 1, 1⟩, "A", 10⟩, ⟨⟨2024, 1, 8⟩, "A", 0⟩, ⟨⟨2024, 1, 15⟩, "A", 20⟩]
        = statsSpec [⟨⟨2024, 1, 1⟩, "A", 10⟩, ⟨⟨2024, 1, 8⟩, "A", 0⟩,
          ⟨⟨2024, 1, 15⟩, "A", 20⟩] ∧
      (∀ s, (∃ x ∈ stats_of [⟨⟨2024, 1, 1⟩, "A", 10⟩, ⟨⟨2024, 1, 8⟩, "A", 0⟩,
            ⟨⟨2024, 1, 15⟩, "A", 20⟩], x.1 = s) ↔
        ∃ r ∈ ([⟨⟨2024, 1, 1⟩, "A", 10⟩, ⟨⟨2024, 1, 8⟩, "A", 0⟩,
            ⟨⟨2024, 1, 15⟩, "A", 20⟩] : List Row), r.store = s ∧ r.sales ≠ 0)) :=
  by
  refine ⟨by decide, ?_, C3_stats _ (by decide)⟩
  norm_num [stats_of, sortedKeys, sumSales, meanSales, medianSales, List.dedup]

/-- C7: the per-store composition sums add up to the total sales of the
main-period subset, and the composition is a function of the main period
alone — changing compare mode or the comparison range leaves it
unchanged. -/
theorem C7_composition (df : List Row) (cm : Bool) (s1 e1 s2 e2 : Date)
    (stores : List String) :
    ((compositionData df cm s1 e1 s2 e2 stores).map Prod.snd).sum
        = sumSales (df_period_1 df s1 e1 stores) ∧
    ∀ cm2 s2b e2b, compositionData df cm s1 e1 s2 e2 stores
        = compositionData df cm2 s1 e1 s2b e2b stores := by
  refine ⟨?_, fun _ _ _ => rfl⟩
  unfold compositionData store_sales
  rw [List.map_map]
  exact sum_groups Row.store _ _ (sortedKeys_nodup _)
    (fun r hr => mem_sortedKeys.mpr (List.mem_map_of_mem _ hr))

/-- C8: on an empty input table both chart builders return no chart. -/
theorem C8_empty_builders :
    create_heatmap [] = none ∧ create_stats_barchart [] = none :=
  ⟨rfl, rfl⟩

/-- C9: because the guard tests v2 > 0 rather than v2 == 0, every
comparison value ≤ 0 — not only exactly zero — yields positive infinity
instead of the formula value. -/
theorem C9_nonpositive_guard (v1 v2 : ℚ) (h : v2 ≤ 0) :
    sales_var v1 v2 = DeltaVal.inf ∧
    sales_var v1 v2 ≠ DeltaVal.fin ((v1 - v2) / v2 * 100) := by
  have he : sales_var v1 v2 = DeltaVal.inf := by rw [sales_var, if_neg (not_lt.mpr h)]
  refine ⟨he, ?_⟩
  rw [he]
  intro hc
  cases hc

/-- C9 witness: the strictly negative comparison value -50. -/
theorem C9_nonpositive_guard_witness :
    sales_var 100 (-50) = DeltaVal.inf ∧
    sales_var 100 (-50) ≠ DeltaVal.fin ((100 - (-50)) / (-50) * 100) :=
  C9_nonpositive_guard 100 (-50) (by norm_num)

theorem isEmpty_congr {α : Type} {l1 l2 : List α} (h : l1.Perm l2) :
    l1.isEmpty = l2.isEmpty := by
  cases hc : l2.isEmpty
  · rw [List.isEmpty_eq_false] at hc ⊢
    intro hnil
    exact hc ((hnil ▸ h).symm.eq_nil)
  · rw [List.isEmpty_iff] at hc ⊢
    exact (hc ▸ h).eq_nil

theorem heatmapCell_congr {rows1 rows2 : List Row} (h : rows1.Perm rows2) (s dy : String) :
    heatmapCell rows1 s dy = heatmapCell rows2 s dy := by
  simp only [heatmapCell]
  have hf := h.filter fun r => r.store == s && day_of_week r == dy
  rw [isEmpty_congr hf, meanSales_congr hf]

theorem heatmapData_congr {rows1 rows2 : List Row} (h : rows1.Perm rows2) :
    heatmapData rows1 = heatmapData rows2 := by
  simp only [heatmapData]
  rw [sortedKeys_congr (h.map Row.store)]
  apply List.map_congr_left
  intro s _
  have : ordered_days.map (heatmapCell rows1 s) = ordered_days.map (heatmapCell rows2 s) :=
    List.map_congr_left fun dy _ => heatmapCell_congr h s dy
  rw [this]

theorem heatmapCell_eq_none_iff (rows : List Row) (s dy : String) :
    heatmapCell rows s dy = none ↔
      ∀ r ∈ rows, ¬(r.store = s ∧ day_of_week r = dy) := by
  simp only [heatmapCell]
  by_cases hg : (rows.filter fun r => r.store == s && day_of_week r == dy) = []
  · rw [hg]
    refine iff_of_true rfl ?_
    rw [List.filter_eq_nil_iff] at hg
    intro r hr hc
    exact hg r hr (by rw [Bool.and_eq_true, beq_iff_eq, beq_iff_eq]; exact ⟨hc.1, hc.2⟩)
  · rw [if_neg (fun hc => hg (List.isEmpty_iff.mp hc))]
    refine iff_of_false (by simp) ?_
    intro hall
    apply hg
    rw [List.filter_eq_nil_iff]
    intro r hr hc
    rw [Bool.and_eq_true, beq_iff_eq, beq_iff_eq] at hc
    exact hall r hr ⟨hc.1, hc.2⟩

theorem heatmapCell_eq_some (rows : List Row) (s dy : String)
    (hex : ∃ r ∈ rows, r.store = s ∧ day_of_week r = dy) :
    heatmapCell rows s dy
      = some (meanSales (rows.filter fun r => r.store == s && day_of_week r == dy)) := by
  obtain ⟨r, hr, hs, hdy⟩ := hex
  have hne2 : ¬((rows.filter fun r => r.store == s && day_of_week r == dy).isEmpty = true) := by
    intro hc
    rw [List.isEmpty_iff, List.filter_eq_nil_iff] at hc
    exact hc r hr (by rw [Bool.and_eq_true, beq_iff_eq, beq_iff_eq]; exact ⟨hs, hdy⟩)
  simp only [heatmapCell]
  rw [if_neg hne2]

/-- C5: for every non-empty subset the heatmap builder returns the pivot
whose rows are the sorted distinct stores, whose columns are positionally
the days Monday..Sunday of ordered_days, whose cells are the per
(store, day) sales means with absent combinations rendered as none, and
the pivot is invariant under permutation of the input rows. -/
theorem C5_heatmap (rows rowsP : List Row) (hne : rows ≠ []) (hperm : rows.Perm rowsP) :
    create_heatmap rows = some (heatmapData rows) ∧
    heatmapData rowsP = heatmapData rows ∧
    (heatmapData rows).map Prod.fst = sortedKeys (rows.map Row.store) ∧
    (∀ x ∈ heatmapData rows, x.2 = ordered_days.map (heatmapCell rows x.1)) ∧
    (∀ s dy, heatmapCell rows s dy = none ↔
      ∀ r ∈ rows, ¬(r.store = s ∧ day_of_week r = dy)) ∧
    (∀ s dy, (∃ r ∈ rows, r.store = s ∧ day_of_week r = dy) →
      heatmapCell rows s dy
        = some (meanSales (rows.filter fun r => r.store == s && day_of_week r == dy))) := by
  refine ⟨?_, heatmapData_congr hperm.symm, ?_, ?_, heatmapCell_eq_none_iff rows,
    fun s dy => heatmapCell_eq_some rows s dy⟩
  · rw [create_heatmap, if_neg (fun hc => hne (List.isEmpty_iff.mp hc))]
  · rw [heatmapData, List.map_map]
    have hid : (Prod.fst ∘ fun s => (s, ordered_days.map (heatmapCell rows s))) = id := rfl
    rw [hid, List.map_id]
  · intro x hx
    simp only [heatmapData, List.mem_map] at hx
    obtain ⟨s, -, rfl⟩ := hx
    rfl

/-- C5 witness: two rows (a Monday sale of store A and a Tuesday sale of
store B) in both orders; store index, a missing cell, and a present cell
evaluated. -/
theorem C5_heatmap_witness :
    (heatmapData [⟨⟨2024, 1, 1⟩, "A", 10⟩, ⟨⟨2024, 1, 2⟩, "B", 20⟩]).map Prod.fst
        = ["A", "B"] ∧
    heatmapCell [⟨⟨2024, 1, 1⟩, "A", 10⟩, ⟨⟨2024, 1, 2⟩, "B", 20⟩] "A" "Tuesday" = none ∧
    heatmapCell [⟨⟨2024, 1, 1⟩, "A", 10⟩, ⟨⟨2024, 1, 2⟩, "B", 20⟩] "A" "Monday" ≠ none ∧
    heatmapData [⟨⟨2024, 1, 2⟩, "B", 20⟩, ⟨⟨2024, 1, 1⟩, "A", 10⟩]
        = heatmapData [⟨⟨2024, 1, 1⟩, "A", 10⟩, ⟨⟨2024, 1, 2⟩, "B", 20⟩] :=
  ⟨by decide, by decide, by decide,
    (C5_heatmap [⟨⟨2024, 1, 1⟩, "A", 10⟩, ⟨⟨2024, 1, 2⟩, "B", 20⟩]
      [⟨⟨2024, 1, 2⟩, "B", 20⟩, ⟨⟨2024, 1, 1⟩, "A", 10⟩] (by decide) (by decide)).2.1⟩

instance : IsTotal MonthlyEntry entryLe := ⟨fun a b => Nat.le_total a.mnum b.mnum⟩

instance : IsTrans MonthlyEntry entryLe := ⟨fun _ _ _ => Nat.le_trans⟩

/-- C6: with compare mode on and a non-empty comparison subset, the trend
data is the concatenation of the two per-period monthly sums, each entry
labelled with its period, rearranged so that month numbers are ascending;
each entry carries the sales sum of its own period over its month. -/
theorem C6_monthly_compare (cm : Bool) (rows1 rows2 : List Row) (h1 : cm = true)
    (h2 : rows2 ≠ []) :
    monthlyTrend cm rows1 rows2 = Sum.inl (monthlyCompare rows1 rows2) ∧
    List.Sorted entryLe (monthlyCompare rows1 rows2) ∧
    (monthlyCompare rows1 rows2).Perm
      (groupMonthly rows1 "Main" ++ groupMonthly rows2 "Comparison") ∧
    (∀ e ∈ monthlyCompare rows1 rows2,
      (e.period = "Main" ∨ e.period = "Comparison") ∧
      (e.period = "Main" → e.sales = sumSales (rows1.filter fun r =>
          month_num r == e.mnum && month_name r == e.mname)) ∧
      (e.period = "Comparison" → e.sales = sumSales (rows2.filter fun r =>
          month_num r == e.mnum && month_name r == e.mname))) := by
  subst h1
  refine ⟨?_, List.sorted_insertionSort entryLe _, List.perm_insertionSort entryLe _, ?_⟩
  · rw [monthlyTrend, if_pos]
    rw [Bool.true_and, Bool.not_eq_true', List.isEmpty_eq_false]
    exact h2
  · intro e he
    rw [monthlyCompare, (List.perm_insertionSort entryLe _).mem_iff, List.mem_append] at he
    cases he with
    | inl hm =>
      simp only [groupMonthly, List.mem_map] at hm
      obtain ⟨k, -, rfl⟩ := hm
      exact ⟨Or.inl rfl, fun _ => rfl, fun hc => by simp at hc⟩
    | inr hm =>
      simp only [groupMonthly, List.mem_map] at hm
      obtain ⟨k, -, rfl⟩ := hm
      exact ⟨Or.inr rfl, fun hc => by simp at hc, fun _ => rfl⟩

/-- C6 witness: main rows in input month order Mar, Jan, Feb plus one
comparison row in Jan; the output months read Jan, Jan, Feb, Mar with the
comparison point labelled. -/
theorem C6_monthly_compare_witness :
    (monthlyCompare
        [⟨⟨2024, 3, 5⟩, "A", 30⟩, ⟨⟨2024, 1, 5⟩, "A", 10⟩, ⟨⟨2024, 2, 5⟩, "A", 20⟩]
        [⟨⟨2023, 1, 7⟩, "A", 5⟩]).map MonthlyEntry.mname = ["Jan", "Jan", "Feb", "Mar"] ∧
    (monthlyCompare
        [⟨⟨2024, 3, 5⟩, "A", 30⟩, ⟨⟨2024, 1, 5⟩, "A", 10⟩, ⟨⟨2024, 2, 5⟩, "A", 20⟩]
        [⟨⟨2023, 1, 7⟩, "A", 5⟩]).map MonthlyEntry.period
      = ["Main", "Comparison", "Main", "Main"] ∧
    monthlyTrend true
        [⟨⟨2024, 3, 5⟩, "A", 30⟩, ⟨⟨2024, 1, 5⟩, "A", 10⟩, ⟨⟨2024, 2, 5⟩, "A", 20⟩]
        [⟨⟨2023, 1, 7⟩, "A", 5⟩]
      = Sum.inl (monthlyCompare
        [⟨⟨2024, 3, 5⟩, "A", 30⟩, ⟨⟨2024, 1, 5⟩, "A", 10⟩, ⟨⟨2024, 2, 5⟩, "A", 20⟩]
        [⟨⟨2023, 1, 7⟩, "A", 5⟩]) :=
  ⟨by decide, by decide,
    (C6_monthly_compare true
      [⟨⟨2024, 3, 5⟩, "A", 30⟩, ⟨⟨2024, 1, 5⟩, "A", 10⟩, ⟨⟨2024, 2, 5⟩, "A", 20⟩]
      [⟨⟨2023, 1, 7⟩, "A", 5⟩] rfl (by decide)).1⟩

/-- C10: with compare mode off the trend groups by the year-month label,
whose distinct values are the series keys (so equal months of different
years stay separate points), each point carries the sales sum of its
label, and the series is ordered by the label strings, whose
lexicographic order coincides with chronological order on well-formed
dates. -/
theorem C10_monthly_single (rows1 rows2 : List Row) :
    monthlyTrend false rows1 rows2 = Sum.inr (monthlySingle rows1) ∧
    List.Sorted (· ≤ ·) ((monthlySingle rows1).map Prod.fst) ∧
    (∀ k, (∃ x ∈ monthlySingle rows1, x.1 = k) ↔ ∃ r ∈ rows1, month_year r = k) ∧
    (∀ x ∈ monthlySingle rows1, x.2 = sumSales (rows1.filter fun r => month_year r == x.1)) ∧
    (∀ d1 d2 : Date, ValidDate d1 → ValidDate d2 →
      (monthYearOf d1 < monthYearOf d2 ↔
        d1.year < d2.year ∨ (d1.year = d2.year ∧ d1.month < d2.month))) ∧
    (∀ d1 d2 : Date, ValidDate d1 → ValidDate d2 → d1.month = d2.month →
      d1.year ≠ d2.year → monthYearOf d1 ≠ monthYearOf d2) := by
  have hfst : (monthlySingle rows1).map Prod.fst = sortedKeys (rows1.map month_year) := by
    rw [monthlySingle, List.map_map]
    have hid : (Prod.fst ∘ fun k => (k, sumSales (rows1.filter fun r => month_year r == k)))
        = id := rfl
    rw [hid, List.map_id]
  have hsorted : List.Sorted (· ≤ ·) ((monthlySingle rows1).map Prod.fst) := by
    rw [hfst]
    exact (sortedKeys_sorted _).imp fun h => (strLe_iff _ _).mp h
  refine ⟨rfl, hsorted, ?_, ?_, monthYear_lt_iff, ?_⟩
  · intro k
    simp only [monthlySingle, List.mem_map, mem_sortedKeys]
    constructor
    · rintro ⟨x, ⟨k1, ⟨r, hr, hrk⟩, rfl⟩, hx⟩
      exact ⟨r, hr, by rw [hrk, ← hx]⟩
    · rintro ⟨r, hr, rfl⟩
      exact ⟨_, ⟨month_year r, ⟨r, hr, rfl⟩, rfl⟩, rfl⟩
  · intro x hx
    simp only [monthlySingle, List.mem_map] at hx
    obtain ⟨k, -, rfl⟩ := hx
    rfl
  · intro d1 d2 h1 h2 hm hy heq
    cases Nat.lt_or_ge d1.year d2.year with
    | inl hlt =>
      have := (monthYear_lt_iff d1 d2 h1 h2).mpr (Or.inl hlt)
      rw [heq] at this
      exact lt_irrefl _ this
    | inr hge =>
      have hlt : d2.year < d1.year := lt_of_le_of_ne hge (fun he => hy he.symm)
      have := (monthYear_lt_iff d2 d1 h2 h1).mpr (Or.inl hlt)
      rw [heq] at this
      exact lt_irrefl _ this

/-- C10 witness: the same calendar month May in 2023 and January in 2024;
labels evaluated, ordering instantiated at concrete valid dates. -/
theorem C10_monthly_single_witness :
    (monthlySingle [⟨⟨2023, 5, 1⟩, "A", 7⟩, ⟨⟨2024, 1, 1⟩, "A", 9⟩]).map Prod.fst
        = ["2023-05", "2024-01"] ∧
    (monthYearOf ⟨2023, 5, 1⟩ < monthYearOf ⟨2024, 1, 1⟩ ↔
      (2023 : Nat) < 2024 ∨ ((2023 : Nat) = 2024 ∧ (5 : Nat) < 1)) :=
  ⟨by decide,
    (C10_monthly_single [⟨⟨2023, 5, 1⟩, "A", 7⟩, ⟨⟨2024, 1, 1⟩, "A", 9⟩] []).2.2.2.2.1
      ⟨2023, 5, 1⟩ ⟨2024, 1, 1⟩ (by decide) (by decide)⟩

/-- C4: the data explorer is sorted by the already-formatted %d/%m/%Y
date strings, not by the date itself: store A sold on 2024-01-02, the
strictly earlier date, yet its line is displayed first because
"02/01/2024" is lexicographically above "01/02/2024" in the descending
string sort. -/
theorem C4_explorer_string_sort :
    df_display [⟨⟨2024, 1, 2⟩, "A", 100⟩, ⟨⟨2024, 2, 1⟩, "B", 50⟩]
        = [displayRow ⟨⟨2024, 1, 2⟩, "A", 100⟩, displayRow ⟨⟨2024, 2, 1⟩, "B", 50⟩] ∧
    (displayRow ⟨⟨2024, 1, 2⟩, "A", 100⟩).date = "02/01/2024" ∧
    (displayRow ⟨⟨2024, 2, 1⟩, "B", 50⟩).date = "01/02/2024" ∧
    (⟨2024, 1, 2⟩ : Date) < ⟨2024, 2, 1⟩ := by
  refine ⟨by decide, by decide, by decide, by decide⟩

end Dashboard
